import Mathlib

/-!
Verification of the ELECTRIC_USAGE meter-billing application.

Shallow embedding of the TypeScript sources (`src/services/geminiService.ts`,
`src/App.tsx`, `src/components/AnalysisResults.tsx`, `src/components/Invoice.tsx`,
`src/types.ts`).  JavaScript numbers are idealised as rationals (`ℚ`), strings
as Lean `String`s, and the fallible asynchronous calls as `Except String`
values.  Remote responses are abstracted by a type parameter: the client code
never inspects them before returning.
-/

namespace ElectricUsage

/-! ## JavaScript string primitives

`String.prototype.includes` and `String.prototype.toLowerCase`, modelled on
character lists (ASCII case folding, which is all the source relies on). -/

/-- Does the second list occur as a leading block of the first?
(Helper for the JS `includes` model.) -/
def charsStart : List Char → List Char → Bool
  | _, [] => true
  | [], _ :: _ => false
  | a :: s, b :: p => a == b && charsStart s p

/-- Does the second list occur contiguously anywhere inside the first?
(JS `String.prototype.includes` on the underlying characters.) -/
def charsHave : List Char → List Char → Bool
  | [], p => charsStart [] p
  | a :: s, p => charsStart (a :: s) p || charsHave s p

/-- JS `haystack.includes(needle)`. -/
def strHas (s pat : String) : Bool := charsHave s.data pat.data

/-- ASCII lower-casing of one character (JS `toLowerCase` on the ASCII range,
which is all the error-classification code compares against). -/
def charLower (c : Char) : Char :=
  if 'A' ≤ c ∧ c ≤ 'Z' then Char.ofNat (c.toNat + 32) else c

/-- JS `s.toLowerCase()`. -/
def strLower (s : String) : String := ⟨s.data.map charLower⟩

/-! ## JavaScript numeric primitives (idealised over ℚ) -/

/-- JS `Math.round` for the non-negative arguments produced by the image
scaling code: round half towards positive infinity. -/
def jsRound (q : ℚ) : ℤ := ⌊q + 1/2⌋

/-- JS `parseFloat(x.toFixed(2))` for the non-negative `x = Math.abs(...)` the
source applies it to: rounding to two decimal places, halves up. -/
def round2 (x : ℚ) : ℚ := ((round (x * 100) : ℤ) : ℚ) / 100

/-! ## Data model (`src/types.ts`) -/

/-- Source `ReadingData`: a timestamped meter value. -/
structure ReadingData where
  date : String
  value : ℚ
  deriving Repr, DecidableEq

/-- Source `AnalysisResult`: two readings plus the derived usage. -/
structure AnalysisResult where
  startReading : ReadingData
  endReading : ReadingData
  usage : ℚ
  deriving Repr, DecidableEq

/-! ## Result normalisation (`geminiService.ts`, `analyzeMeterImage` lines 174–184)

After a successful model reply, both reading values are coerced with
`Number(...)` (the identity on numbers) and
`usage = parseFloat(Math.abs(endVal - startVal).toFixed(2))`. -/

/-- The success path of `analyzeMeterImage`: build the returned
`AnalysisResult` from the parsed reply. -/
def normalizeResult (startReading endReading : ReadingData) : AnalysisResult :=
  let startVal := startReading.value
  let endVal := endReading.value
  let usage := round2 |endVal - startVal|
  { startReading := { startReading with value := startVal }
    endReading := { endReading with value := endVal }
    usage := usage }

/-! ## Manual edits (`AnalysisResults.tsx`, `handleValueChange` lines 48–62)

The handler receives the raw text of the edited field and the side being
edited.  `parseFloat` is modelled by its outcome: `none` for `NaN`, `some v`
for a successful parse.  The function returns the new local result together
with the list of `onUpdateResult` invocations it performs. -/

/-- Which reading an edit targets (`'start' | 'end'` in the source; `end` is a
Lean keyword, so the second side is named `stop`). -/
inductive ReadingSide where
  | start
  | stop
  deriving Repr, DecidableEq

/-- Source `handleValueChange`: on `NaN` return immediately; otherwise overwrite the
edited reading's value, recompute usage, and push the update both to local
state and to `onUpdateResult`. -/
def handleValueChange (localResult : AnalysisResult) (side : ReadingSide)
    (parsed : Option ℚ) : AnalysisResult × List AnalysisResult :=
  match parsed with
  | none => (localResult, [])
  | some newVal =>
    let withReading :=
      match side with
      | .start => { localResult with
                      startReading := { localResult.startReading with value := newVal } }
      | .stop  => { localResult with
                      endReading := { localResult.endReading with value := newVal } }
    let updated := { withReading with
      usage := round2 |withReading.endReading.value - withReading.startReading.value| }
    (updated, [updated])

/-! ## Retry wrapper (`geminiService.ts`, `generateContentWithRetry` lines 46–91)

The remote call of attempt `i` is abstracted as `attempts i : Except String α`
(`α` the opaque provider response; the error carries `error.message`).  The
loop `for (let i = 0; i <= retries; i++)` either returns the first success, or
— on an error classified as a quota error while `i < retries` — waits
`currentDelay` ms, doubles the delay and continues; any other error, or a
quota error at `i = retries`, is rethrown.  `RetryOutcome` additionally
records how many attempts were issued and the total backoff waited, so that
"no second attempt is made and no backoff delay occurs" is statable. -/

/-- The quota/rate-limit classification applied to `error.message` (lines
73–77): lower-case the message and look for any of the four markers. -/
def isQuotaError (errorMessage : String) : Bool :=
  let m := strLower errorMessage
  strHas m "429" || strHas m "quota" || strHas m "exhausted" ||
    strHas m "too many requests"

/-- Result of running the retry loop: the value returned or error thrown, the
number of attempts actually issued, and the total milliseconds of backoff. -/
structure RetryOutcome (α : Type) where
  result : Except String α
  attemptsMade : ℕ
  totalDelay : ℕ
  deriving Repr

/-- The body of the retry loop, starting at attempt `i` with the current
backoff `delay` and `remaining = retries - i` further retries allowed. -/
def retryLoop {α : Type} (attempts : ℕ → Except String α) :
    ℕ → ℕ → ℕ → RetryOutcome α
  | i, delay, remaining =>
    match attempts i with
    | .ok response => ⟨.ok response, 1, 0⟩
    | .error e =>
      match remaining with
      | 0 => ⟨.error e, 1, 0⟩
      | r + 1 =>
        if isQuotaError e then
          let rest := retryLoop attempts (i + 1) (delay * 2) r
          ⟨rest.result, rest.attemptsMade + 1, rest.totalDelay + delay⟩
        else ⟨.error e, 1, 0⟩

/-- Source `generateContentWithRetry(model, contents, config, retries = 3,
initialDelay = 2000)`: throw if the API key is missing, otherwise run the
retry loop from attempt 0. -/
def generateContentWithRetry {α : Type} (apiKey : String)
    (attempts : ℕ → Except String α) (retries : ℕ := 3)
    (initialDelay : ℕ := 2000) : RetryOutcome α :=
  if apiKey = "" then
    ⟨.error "API Key is missing. Please check your settings (Vercel Environment Variables). Key must be named 'API_KEY' or 'VITE_API_KEY'.", 0, 0⟩
  else
    retryLoop attempts 0 initialDelay retries

/-! ## User-facing error mapping (`geminiService.ts`, `analyzeMeterImage`
lines 186–198)

The catch block of `analyzeMeterImage` rewrites the thrown error: an
'API Key is missing' marker and the '429'/'quota' markers (checked on the raw
message, case-sensitively) map to fixed user-facing strings; everything else
is rethrown with its original message. -/

/-- The two fixed user-facing messages of the catch block. -/
def apiKeyErrorText : String :=
  "System Error: API Key is not configured. Please verify Vercel Environment Variables."

/-- The rate-limit taxonomy message thrown for '429'/'quota' errors. -/
def quotaBusyText : String :=
  "Server is busy (Quota Exceeded). Please wait a moment and try again."

/-- The error mapping of the catch block: `error.message?.includes(...)`
checks, in source order. -/
def mapAnalyzeError (message : String) : String :=
  if strHas message "API Key is missing" then apiKeyErrorText
  else if strHas message "429" || strHas message "quota" then quotaBusyText
  else message

/-- Source `analyzeMeterImage`, error path: run the retry wrapper and, when it
throws, rethrow the mapped message.  The success path (normalisation) is
`normalizeResult`; here the raw response is passed through untouched. -/
def analyzeMeterImageRun {α : Type} (apiKey : String)
    (attempts : ℕ → Except String α) : Except String α :=
  match (generateContentWithRetry apiKey attempts).result with
  | .ok response => .ok response
  | .error e => .error (mapAnalyzeError e)

/-! ## Application state (`src/App.tsx`)

`AnalysisItem` as in `types.ts` / the local interface in `App.tsx`.  A `File`
is modelled by its name and byte size (all the code reads of the dummy share
file).  The optional `isShared` flag is modelled as a `Bool` (JS `undefined`
is falsy). -/

/-- The per-item status enumeration. -/
inductive Status where
  | idle
  | analyzing
  | success
  | error
  deriving Repr, DecidableEq

/-- A browser `File`, by the attributes the code observes. -/
structure SrcFile where
  name : String
  size : ℕ
  deriving Repr, DecidableEq

/-- Source `MeterAssignment`. -/
structure MeterAssignment where
  tenantId : String
  meterName : String
  deriving Repr, DecidableEq

/-- Source `AnalysisItem`. -/
structure AnalysisItem where
  id : String
  file : SrcFile
  status : Status
  result : Option AnalysisResult
  error : Option String
  assignment : MeterAssignment
  isShared : Bool
  deriving Repr, DecidableEq

/-- Source `Tenant`. -/
structure Tenant where
  id : String
  name : String
  meters : List String
  deriving Repr, DecidableEq

/-! ### `analyzeItem` (`App.tsx` lines 110–121)

Each `setItems(prev => prev.map(i => i.id === item.id ? {...i, ...} : i))`
is a keyed-by-id map update.  The settlement of the awaited
`analyzeMeterImage` promise is abstracted as `outcome : Except String
AnalysisResult` (the error carries `err.message || "Analysis failed"`). -/

/-- The first `setItems` of `analyzeItem`: mark the item analyzing and clear
its error (`{ ...i, status: 'analyzing', error: undefined }`). -/
def setAnalyzing (targetId : String) (prev : List AnalysisItem) :
    List AnalysisItem :=
  prev.map fun i =>
    if i.id = targetId then { i with status := .analyzing, error := none } else i

/-- The success-branch `setItems` (`{ ...i, status: 'success', result }`). -/
def settleSuccess (targetId : String) (result : AnalysisResult)
    (prev : List AnalysisItem) : List AnalysisItem :=
  prev.map fun i =>
    if i.id = targetId then { i with status := .success, result := some result }
    else i

/-- The catch-branch `setItems`
(`{ ...i, status: 'error', error: err.message || "Analysis failed" }`). -/
def settleError (targetId : String) (message : String)
    (prev : List AnalysisItem) : List AnalysisItem :=
  prev.map fun i =>
    if i.id = targetId then { i with status := .error, error := some message }
    else i

/-- A full run of `analyzeItem` on the collection `items`, for an item whose
request (if issued) settles as `outcome`.  Returns the collection after the
first state update, the collection after settlement, and whether a request
was issued at all.  The re-entrancy guard (`if (item.status === 'success' ||
item.status === 'analyzing') return;`) makes the run a no-op. -/
def analyzeItemRun (items : List AnalysisItem) (item : AnalysisItem)
    (outcome : Except String AnalysisResult) :
    List AnalysisItem × List AnalysisItem × Bool :=
  if item.status = .success ∨ item.status = .analyzing then
    (items, items, false)
  else
    let started := setAnalyzing item.id items
    match outcome with
    | .ok result => (started, settleSuccess item.id result started, true)
    | .error msg => (started, settleError item.id msg started, true)

/-- Source `handleRemoveImage` (`App.tsx` lines 102–104):
`prev.filter((_, i) => i !== index)`. -/
def handleRemoveImage (index : ℕ) (prev : List AnalysisItem) :
    List AnalysisItem :=
  (prev.enum.filter (fun p => p.1 ≠ index)).map (fun p => p.2)

/-! ## Billing (`App.tsx` `invoiceData` lines 185–205, `Invoice.tsx` totals
lines 323–338)

Per item: `cost = Math.floor(item.result.usage * unitPrice)`.  The invoice
sums these floored costs into `totalCost`; the invoice view renders
`VAT = Math.floor(totalCost * 0.1)` and
`Total Due = Math.floor(totalCost * 1.1)`. -/

/-- One line of an `InvoiceData`. -/
structure InvoiceItem where
  meterName : String
  result : AnalysisResult
  file : SrcFile
  cost : ℤ
  isShared : Bool
  deriving Repr, DecidableEq

/-- Source `InvoiceData` (derived, per tenant). -/
structure InvoiceData where
  tenant : Tenant
  items : List InvoiceItem
  totalUsage : ℚ
  totalCost : ℤ
  deriving Repr, DecidableEq

/-- Per-item `Math.floor(usage * unitPrice)`. -/
def itemCost (usage unitPrice : ℚ) : ℤ := ⌊usage * unitPrice⌋

/-- Source `itemsWithCost.reduce((acc, curr) => acc + curr.cost, 0)`. -/
def totalCostOf (usages : List ℚ) (unitPrice : ℚ) : ℤ :=
  (usages.map fun u => itemCost u unitPrice).sum

/-- The rendered VAT line: `Math.floor(invoice.totalCost * 0.1)`. -/
def vatOf (totalCost : ℤ) : ℤ := ⌊(totalCost : ℚ) * (1/10)⌋

/-- The rendered total due: `Math.floor(invoice.totalCost * 1.1)`. -/
def totalDueOf (totalCost : ℤ) : ℤ := ⌊(totalCost : ℚ) * (11/10)⌋

/-! ## Share payload (`Invoice.tsx` `generateShareUrl` lines 609–624,
`App.tsx` mount-time handler lines 40–90)

`generateShareUrl` builds the payload
`{t: tenantName, p: unitPrice, i: [{n, s, sd, e, ed, u}]}`, serialises it
with `JSON.stringify` and embeds it percent-encoded in `?share=`.  The App
decodes with `JSON.parse(decodeURIComponent(...))`.  The textual JSON /
percent-encoding layer is the platform's inverse serialiser pair, so the
round-trip is embedded at the structured-payload level: the encoder below
is the payload construction and the decoder is the reconstruction the App
performs on the parsed payload. -/

/-- One entry of the `i` array of a share payload. -/
structure ShareItem where
  n : String
  s : ℚ
  sd : String
  e : ℚ
  ed : String
  u : ℚ
  deriving Repr, DecidableEq

/-- The share payload object. -/
structure SharePayload where
  t : String
  p : ℚ
  i : List ShareItem
  deriving Repr, DecidableEq

/-- The payload construction of `generateShareUrl`. -/
def generateSharePayload (invoice : InvoiceData) (unitPrice : ℚ) :
    SharePayload :=
  { t := invoice.tenant.name
    p := unitPrice
    i := invoice.items.map fun item =>
      { n := item.meterName
        s := item.result.startReading.value
        sd := item.result.startReading.date
        e := item.result.endReading.value
        ed := item.result.endReading.date
        u := item.result.usage } }

/-- The mount-time share handler of `App.tsx`: reconstruct the synthetic
tenant (`decoded.t || 'Shared Invoice'`; meters are the item names in order)
and the `'success'`-status, `isShared` items with the zero-byte dummy file
`new File([""], "Image_Not_Available_In_Share_Mode")`. -/
def decodeSharePayload (decoded : SharePayload) :
    Tenant × List AnalysisItem :=
  let sharedTenantId := "shared-tenant"
  let sharedTenant : Tenant :=
    { id := sharedTenantId
      name := if decoded.t = "" then "Shared Invoice" else decoded.t
      meters := decoded.i.map fun item => item.n }
  let reconstructedItems : List AnalysisItem :=
    decoded.i.enum.map fun p =>
      { id := "shared-" ++ toString p.1
        file := { name := "Image_Not_Available_In_Share_Mode", size := 0 }
        status := .success
        isShared := true
        assignment := { tenantId := sharedTenantId, meterName := p.2.n }
        result := some
          { startReading := { value := p.2.s, date := p.2.sd }
            endReading := { value := p.2.e, date := p.2.ed }
            usage := p.2.u }
        error := none }
  (sharedTenant, reconstructedItems)

/-! ## Image compression (`geminiService.ts`, `compressImage` lines 225–272)

Only the dimension computation is numeric logic; decoding/re-encoding are
platform calls.  `MAX_SIZE = 1024`; the two branches
`width > height && width > MAX_SIZE` and `height > width && height > MAX_SIZE`
scale the longer side down to 1024 and `Math.round` the other. -/

/-- The output canvas dimensions of `compressImage` for an input of the given
`width × height`. -/
def compressDims (width height : ℕ) : ℕ × ℕ :=
  let MAX_SIZE : ℕ := 1024
  if width > height ∧ width > MAX_SIZE then
    (MAX_SIZE, (jsRound ((height : ℚ) * MAX_SIZE / width)).toNat)
  else if height > width ∧ height > MAX_SIZE then
    ((jsRound ((width : ℚ) * MAX_SIZE / height)).toNat, MAX_SIZE)
  else
    (width, height)

/-! ## Helper lemmas -/

theorem round2_nonneg {x : ℚ} (hx : 0 ≤ x) : 0 ≤ round2 x := by
  unfold round2
  have h : (0 : ℤ) ≤ round (x * 100) := by
    rw [round_eq]
    exact Int.floor_nonneg.mpr (by positivity)
  positivity

theorem round2_mul_100_int (x : ℚ) : ∃ k : ℤ, round2 x * 100 = (k : ℚ) := by
  refine ⟨round (x * 100), ?_⟩
  unfold round2
  field_simp

/-! ## Claims -/

/-- C1: every result of `analyzeMeterImage`'s normalisation and every result
produced by an edit through `handleValueChange` has
`usage = round₂ |end.value − start.value|`, hence non-negative (and carrying
at most two decimal digits). -/
theorem C1_usage_abs_round (s e : ReadingData) (r : AnalysisResult)
    (side : ReadingSide) (v : ℚ) :
    ((normalizeResult s e).usage = round2 |e.value - s.value| ∧
      0 ≤ (normalizeResult s e).usage ∧
      ∃ k : ℤ, (normalizeResult s e).usage * 100 = (k : ℚ)) ∧
    ((handleValueChange r side (some v)).1.usage =
        round2 |(handleValueChange r side (some v)).1.endReading.value -
          (handleValueChange r side (some v)).1.startReading.value| ∧
      0 ≤ (handleValueChange r side (some v)).1.usage) := by
  refine ⟨⟨rfl, round2_nonneg (abs_nonneg _), round2_mul_100_int _⟩, ?_, ?_⟩
  · cases side <;> rfl
  · cases side <;> exact round2_nonneg (abs_nonneg _)

/-- C10: when the edited text does not parse (`parseFloat` yields `NaN`),
`handleValueChange` leaves the local result untouched and performs no
`onUpdateResult` call. -/
theorem C10_nan_edit_noop (r : AnalysisResult) (side : ReadingSide) :
    handleValueChange r side none = (r, []) := rfl

/-- C7: per-item cost is `⌊usage·unitPrice⌋`, VAT is `⌊totalCost/10⌋`, total
due is `⌊totalCost·11/10⌋ = totalCost + VAT` (consistent compounding floors),
and on the example readings 694957.7 → 705310.2 at unit price 150 this gives
usage 10352.50, cost 1552875, VAT 155287 and total due 1708162. -/
theorem C7_billing_floors :
    (∀ tc : ℤ, totalDueOf tc = tc + vatOf tc) ∧
    (normalizeResult ⟨"2024-01-01 00:00", 6949577/10⟩
        ⟨"2024-02-01 00:00", 7053102/10⟩).usage = 20705/2 ∧
    itemCost (20705/2) 150 = 1552875 ∧
    totalCostOf [20705/2] 150 = 1552875 ∧
    vatOf 1552875 = 155287 ∧
    totalDueOf 1552875 = 1708162 := by
  refine ⟨fun tc => ?_, ?_, ?_, ?_, ?_, ?_⟩
  · unfold totalDueOf vatOf
    have h : (tc : ℚ) * (11/10) = (tc : ℚ) + (tc : ℚ) * (1/10) := by ring
    rw [h, Int.floor_int_add]
  · show round2 |(7053102/10 : ℚ) - 6949577/10| = 20705/2
    norm_num [round2, round_eq, abs_of_nonneg]
  · unfold itemCost; norm_num
  · unfold totalCostOf itemCost; norm_num
  · unfold vatOf; norm_num
  · unfold totalDueOf; norm_num

/-- If the first `k ≤ remaining` attempts from position `i` all fail with
quota-classified errors and attempt `i + k` succeeds, the loop returns that
success. -/
theorem retryLoop_ok_of_transient {α : Type} (attempts : ℕ → Except String α) :
    ∀ (k i delay remaining : ℕ), k ≤ remaining →
      (∀ j < k, ∃ msg, attempts (i + j) = .error msg ∧ isQuotaError msg = true) →
      ∀ resp, attempts (i + k) = .ok resp →
        (retryLoop attempts i delay remaining).result = .ok resp := by
  intro k
  induction k with
  | zero =>
    intro i delay remaining _ _ resp hok
    rw [Nat.add_zero] at hok
    unfold retryLoop
    rw [hok]
  | succ k ih =>
    intro i delay remaining hk htrans resp hok
    obtain ⟨msg, herr, hq⟩ := htrans 0 (Nat.succ_pos k)
    rw [Nat.add_zero] at herr
    obtain ⟨rem, rfl⟩ : ∃ rem, remaining = rem + 1 :=
      ⟨remaining - 1, by omega⟩
    unfold retryLoop
    rw [herr]
    simp only [hq, if_true]
    exact ih (i + 1) (delay * 2) rem (by omega)
      (fun j hj => by
        have := htrans (j + 1) (by omega)
        rwa [show i + (j + 1) = i + 1 + j by omega] at this)
      resp (by rwa [show i + 1 + k = i + (k + 1) by omega])

/-- C2: an API call run through `generateContentWithRetry` whose first `k`
attempts (for `k` at most the retry bound 3) fail with transient
(429/quota/exhausted/too-many-requests) errors and whose attempt `k` succeeds
returns the successful response; no error reaches the caller. -/
theorem C2_transient_then_success {α : Type} (apiKey : String)
    (attempts : ℕ → Except String α) (k : ℕ)
    (hkey : apiKey ≠ "") (hk : k ≤ 3)
    (htrans : ∀ j < k, ∃ msg, attempts j = .error msg ∧ isQuotaError msg = true)
    (resp : α) (hok : attempts k = .ok resp) :
    (generateContentWithRetry apiKey attempts).result = .ok resp := by
  unfold generateContentWithRetry
  rw [if_neg hkey]
  exact retryLoop_ok_of_transient attempts k 0 2000 3 hk
    (fun j hj => by simpa using htrans j hj) resp (by simpa using hok)

/-- Concrete witness for C2: two 429 failures followed by a success at the
third attempt yield the successful response. -/
theorem C2_transient_then_success_witness :
    (generateContentWithRetry "key"
        (fun j => if j < 2 then Except.error "HTTP 429" else Except.ok (0 : ℕ))
      ).result = .ok 0 :=
  C2_transient_then_success "key" _ 2 (by decide) (by omega)
    (fun j hj => ⟨"HTTP 429", by simp [hj], by decide⟩) 0 (by simp)

/-- C3: a first-attempt error that is not quota-classified is rethrown
immediately: exactly one attempt is issued and no backoff delay occurs. -/
theorem C3_nontransient_fail_fast {α : Type} (apiKey : String)
    (attempts : ℕ → Except String α) (e : String)
    (hkey : apiKey ≠ "") (herr : attempts 0 = .error e)
    (hq : isQuotaError e = false) :
    generateContentWithRetry apiKey attempts = ⟨.error e, 1, 0⟩ := by
  unfold generateContentWithRetry
  rw [if_neg hkey]
  unfold retryLoop
  rw [herr]
  simp [hq]

/-- Concrete witness for C3: a malformed-request error on the first attempt
surfaces as-is after a single attempt with zero delay. -/
theorem C3_nontransient_fail_fast_witness :
    generateContentWithRetry "key"
        (fun _ => Except.error (α := ℕ) "400 invalid request body") =
      ⟨.error "400 invalid request body", 1, 0⟩ :=
  C3_nontransient_fail_fast "key" _ _ (by decide) rfl (by decide)

/-- If every attempt up to and including the last allowed one fails with a
quota-classified error, the loop rethrows the error of the final attempt. -/
theorem retryLoop_exhaust {α : Type} (attempts : ℕ → Except String α) :
    ∀ (remaining i delay : ℕ),
      (∀ j ≤ remaining, ∃ msg, attempts (i + j) = .error msg ∧
        isQuotaError msg = true) →
      ∀ e, attempts (i + remaining) = .error e →
        (retryLoop attempts i delay remaining).result = .error e := by
  intro remaining
  induction remaining with
  | zero =>
    intro i delay _ e he
    rw [Nat.add_zero] at he
    unfold retryLoop
    rw [he]
  | succ rem ih =>
    intro i delay htrans e he
    obtain ⟨msg, herr, hq⟩ := htrans 0 (Nat.zero_le _)
    rw [Nat.add_zero] at herr
    unfold retryLoop
    rw [herr]
    simp only [hq, if_true]
    exact ih (i + 1) (delay * 2)
      (fun j hj => by
        have := htrans (j + 1) (by omega)
        rwa [show i + (j + 1) = i + 1 + j by omega] at this)
      e (by rwa [show i + 1 + rem = i + (rem + 1) by omega])

/-- Counterexample to C4: the message "resource exhausted" is classified as
transient (so every attempt is retried until the bound is exhausted), yet the
catch block of `analyzeMeterImage` — which only checks for the markers
'API Key is missing', '429' and 'quota' — rethrows the raw transport string
rather than either fixed user-facing message. -/
theorem C4_counterexample :
    isQuotaError "resource exhausted" = true ∧
    analyzeMeterImageRun (α := ℕ) "key" (fun _ => .error "resource exhausted") =
      .error "resource exhausted" ∧
    "resource exhausted" ≠ quotaBusyText ∧
    "resource exhausted" ≠ apiKeyErrorText :=
  ⟨by decide, rfl, by decide, by decide⟩

/-- C4 (amended): when all four attempts fail with transient errors and the
final error's raw message contains '429' or 'quota' (and not the
'API Key is missing' marker), `analyzeMeterImage` throws the fixed
"Server is busy (Quota Exceeded)…" taxonomy message, never the raw transport
string.  (Transient messages matching only 'exhausted' or
'too many requests' are surfaced raw, per the counterexample.) -/
theorem C4_amended_quota_taxonomy {α : Type} (apiKey : String)
    (attempts : ℕ → Except String α) (e : String)
    (hkey : apiKey ≠ "")
    (htrans : ∀ j ≤ 3, ∃ msg, attempts j = .error msg ∧ isQuotaError msg = true)
    (hlast : attempts 3 = .error e)
    (hmark : (strHas e "429" || strHas e "quota") = true)
    (hnokey : strHas e "API Key is missing" = false) :
    analyzeMeterImageRun apiKey attempts = .error quotaBusyText := by
  unfold analyzeMeterImageRun generateContentWithRetry
  rw [if_neg hkey]
  have hres : (retryLoop attempts 0 2000 3).result = .error e :=
    retryLoop_exhaust attempts 3 0 2000
      (fun j hj => by simpa using htrans j hj) e (by simpa using hlast)
  rw [hres]
  unfold mapAnalyzeError
  simp [hnokey, hmark]

/-- Concrete witness for the amended C4: four consecutive
"429 quota exceeded" failures surface the fixed busy message. -/
theorem C4_amended_quota_taxonomy_witness :
    analyzeMeterImageRun (α := ℕ) "key" (fun _ => .error "429 quota exceeded") =
      .error quotaBusyText :=
  C4_amended_quota_taxonomy "key" _ "429 quota exceeded" (by decide)
    (fun j _ => ⟨"429 quota exceeded", rfl, by decide⟩) rfl (by decide) (by decide)

/-- C5: `analyzeItem` is a no-op (no state change, no request) on items whose
status is `success` or `analyzing`; on `idle`/`error` items it issues the
request, moves the item to `analyzing` with the error cleared, and settles it
to `success` (with the result) or `error` (with the message), leaving every
other item untouched — exactly the edges
`idle → analyzing → {success, error}` with `error → analyzing` as the only
back-edge. -/
theorem C5_status_machine (items : List AnalysisItem) (item : AnalysisItem)
    (outcome : Except String AnalysisResult) :
    (item.status = .success ∨ item.status = .analyzing →
      analyzeItemRun items item outcome = (items, items, false)) ∧
    (item.status = .idle ∨ item.status = .error →
      (analyzeItemRun items item outcome).2.2 = true ∧
      ∀ (j : ℕ) (i' : AnalysisItem), items[j]? = some i' →
        (i'.id ≠ item.id →
          (analyzeItemRun items item outcome).1[j]? = some i' ∧
          (analyzeItemRun items item outcome).2.1[j]? = some i') ∧
        (i'.id = item.id →
          (analyzeItemRun items item outcome).1[j]? =
            some { i' with status := .analyzing, error := none } ∧
          ((∃ r, outcome = .ok r ∧
              (analyzeItemRun items item outcome).2.1[j]? =
                some { i' with status := .success, error := none,
                               result := some r }) ∨
           (∃ m, outcome = .error m ∧
              (analyzeItemRun items item outcome).2.1[j]? =
                some { i' with status := .error, error := some m })))) := by
  constructor
  · intro hguard
    unfold analyzeItemRun
    rw [if_pos hguard]
  · intro hready
    have hguard : ¬(item.status = .success ∨ item.status = .analyzing) := by
      rcases hready with h | h <;> rw [h] <;> rintro (hc | hc) <;> cases hc
    constructor
    · unfold analyzeItemRun
      rw [if_neg hguard]
      cases outcome <;> rfl
    · intro j i' hj
      constructor
      · intro hne
        unfold analyzeItemRun
        rw [if_neg hguard]
        cases outcome <;>
          simp [setAnalyzing, settleSuccess, settleError,
            List.getElem?_map, hj, hne]
      · intro heq
        unfold analyzeItemRun
        rw [if_neg hguard]
        refine ⟨?_, ?_⟩
        · cases outcome <;>
            simp [setAnalyzing, List.getElem?_map, hj, heq]
        · cases outcome with
          | ok r =>
            exact Or.inl ⟨r, rfl, by
              simp [setAnalyzing, settleSuccess, List.getElem?_map, hj, heq]⟩
          | error m =>
            exact Or.inr ⟨m, rfl, by
              simp [setAnalyzing, settleError, List.getElem?_map, hj, heq]⟩

/-- A sample successful analysis result, for concrete witnesses. -/
def sampleResult : AnalysisResult :=
  { startReading := { date := "2024-01-01 00:00", value := 100 }
    endReading := { date := "2024-02-01 00:00", value := 250 }
    usage := 150 }

/-- A sample idle item awaiting analysis. -/
def sampleIdleItem : AnalysisItem :=
  { id := "a", file := { name := "meter.png", size := 5 }, status := .idle
    result := none, error := none
    assignment := { tenantId := "", meterName := "" }, isShared := false }

/-- A sample already-successful item. -/
def sampleDoneItem : AnalysisItem :=
  { sampleIdleItem with
    id := "b"
    status := .success
    result := some sampleResult }

/-- Concrete witness for C5: re-analysing a successful item is the identity
and issues no request, while analysing an idle item moves it to `analyzing`
with its error cleared. -/
theorem C5_status_machine_witness :
    analyzeItemRun [sampleDoneItem] sampleDoneItem (.ok sampleResult) =
      ([sampleDoneItem], [sampleDoneItem], false) ∧
    (analyzeItemRun [sampleIdleItem] sampleIdleItem (.ok sampleResult)).1[0]? =
      some { sampleIdleItem with status := .analyzing, error := none } :=
  ⟨(C5_status_machine [sampleDoneItem] sampleDoneItem (.ok sampleResult)).1
      (Or.inl rfl),
   ((((C5_status_machine [sampleIdleItem] sampleIdleItem
        (.ok sampleResult)).2 (Or.inl rfl)).2 0 sampleIdleItem rfl).2 rfl).1⟩

/-- Every element surviving `handleRemoveImage` sits at some original
position other than the removed index. -/
theorem mem_handleRemoveImage {index : ℕ} {items : List AnalysisItem}
    {i' : AnalysisItem} (h : i' ∈ handleRemoveImage index items) :
    ∃ j, j ≠ index ∧ items[j]? = some i' := by
  unfold handleRemoveImage at h
  obtain ⟨⟨j, x⟩, hmem, rfl⟩ := List.mem_map.mp h
  obtain ⟨henum, hne⟩ := List.mem_filter.mp hmem
  refine ⟨j, by simpa using hne, ?_⟩
  exact List.mk_mem_enum_iff_getElem?.mp henum

/-- C9: once an item has been removed (`handleRemoveImage`) from an
id-distinct collection, the later settlement of its in-flight request — in
either the success or the error branch — is the identity on the collection:
the removed item is not resurrected and nothing else changes. -/
theorem C9_removed_settle_identity (items : List AnalysisItem) (index : ℕ)
    (it : AnalysisItem) (r : AnalysisResult) (m : String)
    (hids : (items.map AnalysisItem.id).Nodup)
    (hit : items[index]? = some it) :
    settleSuccess it.id r (handleRemoveImage index items) =
      handleRemoveImage index items ∧
    settleError it.id m (handleRemoveImage index items) =
      handleRemoveImage index items := by
  have hne : ∀ i' ∈ handleRemoveImage index items, i'.id ≠ it.id := by
    intro i' hmem heq
    obtain ⟨j, hj, hj'⟩ := mem_handleRemoveImage hmem
    have hjlen : j < items.length := by
      by_contra hlen
      rw [List.getElem?_eq_none (by omega)] at hj'
      cases hj'
    have hidx : index < items.length := by
      by_contra hlen
      rw [List.getElem?_eq_none (by omega)] at hit
      cases hit
    have hmapj : (items.map AnalysisItem.id)[j]? = some i'.id := by
      rw [List.getElem?_map, hj']; rfl
    have hmapidx : (items.map AnalysisItem.id)[index]? = some it.id := by
      rw [List.getElem?_map, hit]; rfl
    have : j = index := by
      refine List.getElem?_inj (by simpa using hjlen) hids ?_
      rw [hmapj, hmapidx, heq]
    exact hj this
  constructor
  · unfold settleSuccess
    exact (List.map_congr_left fun i' hmem =>
      if_neg (hne i' hmem)).trans (List.map_id' _)
  · unfold settleError
    exact (List.map_congr_left fun i' hmem =>
      if_neg (hne i' hmem)).trans (List.map_id' _)

/-- Concrete witness for C9: after removing the first of two distinct items,
settling its request in either branch leaves the collection unchanged. -/
theorem C9_removed_settle_identity_witness :
    settleSuccess sampleIdleItem.id sampleResult
        (handleRemoveImage 0 [sampleIdleItem, sampleDoneItem]) =
      handleRemoveImage 0 [sampleIdleItem, sampleDoneItem] ∧
    settleError sampleIdleItem.id "Analysis failed"
        (handleRemoveImage 0 [sampleIdleItem, sampleDoneItem]) =
      handleRemoveImage 0 [sampleIdleItem, sampleDoneItem] :=
  C9_removed_settle_identity [sampleIdleItem, sampleDoneItem] 0 sampleIdleItem
    sampleResult "Analysis failed" (by decide) rfl

/-- C6: encoding an invoice's share payload and decoding it through the App
mount-time handler reconstructs a single tenant with the original name (when
non-empty) and the original meter names in order, and one item per original
invoice line with the same readings, dates and usage, status `success`,
`isShared` set, and the zero-byte placeholder file. -/
theorem C6_share_roundtrip (invoice : InvoiceData) (unitPrice : ℚ) :
    ((invoice.tenant.name ≠ "" →
      (decodeSharePayload (generateSharePayload invoice unitPrice)).1.name =
        invoice.tenant.name) ∧
     (decodeSharePayload (generateSharePayload invoice unitPrice)).1.meters =
        invoice.items.map InvoiceItem.meterName) ∧
    (decodeSharePayload (generateSharePayload invoice unitPrice)).2.length =
        invoice.items.length ∧
    ∀ (j : ℕ) (it : InvoiceItem), invoice.items[j]? = some it →
      (decodeSharePayload (generateSharePayload invoice unitPrice)).2[j]? =
        some
          { id := "shared-" ++ toString j
            file := { name := "Image_Not_Available_In_Share_Mode", size := 0 }
            status := .success
            result := some it.result
            error := none
            assignment := { tenantId := "shared-tenant"
                            meterName := it.meterName }
            isShared := true } := by
  refine ⟨⟨fun hname => ?_, ?_⟩, ?_, fun j it hj => ?_⟩
  · simp [decodeSharePayload, generateSharePayload, if_neg hname]
  · simp [decodeSharePayload, generateSharePayload, Function.comp]
  · simp [decodeSharePayload, generateSharePayload]
  · simp only [decodeSharePayload, generateSharePayload, List.getElem?_map,
      List.getElem?_enum, hj, Option.map_some']

/-- A one-line invoice for the C6 witness. -/
def sampleInvoiceItem : InvoiceItem :=
  { meterName := "1F Main"
    result := sampleResult
    file := { name := "meter.png", size := 5 }
    cost := 22500
    isShared := false }

/-- The sample invoice around `sampleInvoiceItem`. -/
def sampleInvoice : InvoiceData :=
  { tenant := { id := "t1", name := "A Corp", meters := ["1F Main"] }
    items := [sampleInvoiceItem]
    totalUsage := 150
    totalCost := 22500 }

/-- Concrete witness for C6: a one-line invoice round-trips to the expected
shared tenant name and reconstructed item. -/
theorem C6_share_roundtrip_witness :
    (decodeSharePayload (generateSharePayload sampleInvoice 150)).1.name =
      "A Corp" ∧
    (decodeSharePayload (generateSharePayload sampleInvoice 150)).2[0]? =
      some
        { id := "shared-0"
          file := { name := "Image_Not_Available_In_Share_Mode", size := 0 }
          status := .success
          result := some sampleResult
          error := none
          assignment := { tenantId := "shared-tenant", meterName := "1F Main" }
          isShared := true } :=
  ⟨(C6_share_roundtrip sampleInvoice 150).1.1 (by decide),
   (C6_share_roundtrip sampleInvoice 150).2.2 0 sampleInvoiceItem rfl⟩

/-- Counterexample to C8: a 2000 × 2000 input is square, so neither
rescaling branch of `compressImage` fires and both output dimensions stay at
2000, exceeding the 1024 maximum. -/
theorem C8_counterexample :
    compressDims 2000 2000 = (2000, 2000) ∧ 1024 < 2000 :=
  ⟨rfl, by omega⟩

/-- C8 (amended): for every input whose sides differ, both output dimensions
of `compressImage` are at most 1024 (the longer side is clamped, the shorter
scaled and rounded); square inputs are returned unchanged, so oversized
square images escape the clamp. -/
theorem C8_amended_clamp (width height : ℕ) :
    (width ≠ height →
      (compressDims width height).1 ≤ 1024 ∧
      (compressDims width height).2 ≤ 1024) ∧
    (width = height → compressDims width height = (width, height)) := by
  have scaled_le : ∀ a b : ℕ, a < b →
      (jsRound ((a : ℚ) * 1024 / b)).toNat ≤ 1024 := by
    intro a b hab
    have hb : (0 : ℚ) < b := by
      exact_mod_cast lt_of_le_of_lt (Nat.zero_le a) hab
    have hlt : (a : ℚ) * 1024 / b < 1024 := by
      rw [div_lt_iff₀ hb]
      have : (a : ℚ) < b := by exact_mod_cast hab
      nlinarith
    have hfl : jsRound ((a : ℚ) * 1024 / b) < 1025 := by
      unfold jsRound
      exact Int.floor_lt.mpr (by push_cast; linarith)
    omega
  constructor
  · intro hne
    unfold compressDims
    by_cases h1 : width > height ∧ width > 1024
    · rw [if_pos h1]
      exact ⟨le_refl _, scaled_le height width h1.1⟩
    · rw [if_neg h1]
      by_cases h2 : height > width ∧ height > 1024
      · rw [if_pos h2]
        exact ⟨scaled_le width height h2.1, le_refl _⟩
      · rw [if_neg h2]
        constructor <;> [skip; skip] <;> simp only [] <;> omega
  · intro heq
    subst heq
    unfold compressDims
    rw [if_neg (by omega), if_neg (by omega)]

/-- Concrete witness for the amended C8: a 2000 × 1000 input is clamped to
1024 × 512. -/
theorem C8_amended_clamp_witness :
    (compressDims 2000 1000).1 ≤ 1024 ∧ (compressDims 2000 1000).2 ≤ 1024 :=
  (C8_amended_clamp 2000 1000).1 (by omega)

end ElectricUsage
